import Mathlib

/-!
Verification of the htbCli challenge-context assistant.

Shallow embedding of the repository's core components:
  * the Python-dict based service merge performed by the shell's
    `_cmd_load_nmap` / `_cmd_add_service` (keyed by "<port>/<proto>"),
  * the suggestion engine `next_steps_from_services` and the cheat-sheet
    generator `cheatsheets_for_services` (src/htbcli/suggestions.py),
  * the challenge store (src/htbcli/storage.py),
  * the scan-report parser (src/htbcli/parsers/nmap.py),
  * the tried-list append performed by `_cmd_mark_tried`.

Python dicts are modelled as association lists with in-place overwrite:
assigning to a present key replaces its entry in place (the key keeps its
position), assigning to an absent key appends.  This is exactly the
iteration-order semantics of CPython dicts.  Timestamps produced by
time.strftime are modelled as naturals (the "%Y-%m-%d %H:%M:%S" rendering is
monotone in time).  Python string containment `a in b` is modelled by `pyIn`.
-/

/-- Prefix test on character lists: true iff the first list is a prefix of
the second. -/
def hasPrefixChars : List Char → List Char → Bool
  | [], _ => true
  | _ :: _, [] => false
  | c :: cs, d :: ds => c == d && hasPrefixChars cs ds

/-- Contiguous-substring search on character lists: true iff `needle` occurs
contiguously inside the second list. -/
def hasInfixChars (needle : List Char) : List Char → Bool
  | [] => hasPrefixChars needle []
  | c :: cs => hasPrefixChars needle (c :: cs) || hasInfixChars needle cs

/-- Model of the Python expression `needle in hay` on strings. -/
def pyIn (needle hay : String) : Bool :=
  hasInfixChars needle.data hay.data

/-- Model of Python `str.lower()`, character by character (all the strings
involved are ASCII). -/
def pyLower (s : String) : String :=
  String.mk (s.data.map Char.toLower)

/-- Model of Python `str.strip()`: drop whitespace from both ends. -/
def pyStrip (s : String) : String :=
  String.mk
    (((s.data.dropWhile Char.isWhitespace).reverse.dropWhile
        Char.isWhitespace).reverse)

theorem hasPrefixChars_iff (n h : List Char) :
    hasPrefixChars n h = true ↔ n <+: h := by
  induction n generalizing h with
  | nil => simp [hasPrefixChars]
  | cons c cs ih =>
    cases h with
    | nil => simp [hasPrefixChars]
    | cons d ds =>
      rw [hasPrefixChars, List.cons_prefix_cons]
      simp [ih]

theorem hasInfixChars_iff (n h : List Char) :
    hasInfixChars n h = true ↔ n <:+: h := by
  induction h with
  | nil => simp [hasInfixChars, hasPrefixChars_iff]
  | cons c cs ih =>
    simp [hasInfixChars, hasPrefixChars_iff, ih, List.infix_cons_iff]

theorem pyIn_iff (n h : String) : pyIn n h = true ↔ n.data <:+: h.data :=
  hasInfixChars_iff n.data h.data

/-! ## Python dict model -/

/-- Model of Python `d[k] = v` on a dict represented as an association list:
a present key is overwritten in place, an absent key is appended. -/
def dinsert {β : Type} (d : List (String × β)) (k : String) (v : β) :
    List (String × β) :=
  match d with
  | [] => [(k, v)]
  | p :: ps => if p.1 == k then (k, v) :: ps else p :: dinsert ps k v

/-- Model of Python dict lookup on an association list. -/
def dlookup {β : Type} (d : List (String × β)) (k : String) : Option β :=
  match d with
  | [] => none
  | p :: ps => if p.1 == k then some p.2 else dlookup ps k

/-- Keys of a dict, in iteration order. -/
def dkeys {β : Type} (d : List (String × β)) : List String :=
  d.map Prod.fst

theorem dlookup_dinsert {β : Type} (d : List (String × β)) (k k2 : String)
    (v : β) :
    dlookup (dinsert d k v) k2 = if k == k2 then some v else dlookup d k2 := by
  induction d with
  | nil => simp [dinsert, dlookup]
  | cons p ps ih =>
    by_cases h1 : p.1 = k
    · subst h1
      by_cases h2 : p.1 = k2 <;>
        simp [dinsert, dlookup, h2, beq_eq_false_iff_ne, *]
    · have hb : (p.1 == k) = false := beq_eq_false_iff_ne.mpr h1
      by_cases h2 : p.1 = k2
      · subst h2
        have hbk : (k == p.1) = false := beq_eq_false_iff_ne.mpr (Ne.symm h1)
        simp [dinsert, dlookup, hb, hbk]
      · have hb2 : (p.1 == k2) = false := beq_eq_false_iff_ne.mpr h2
        simp [dinsert, dlookup, hb, hb2, ih]

theorem mem_dkeys_dinsert {β : Type} (d : List (String × β)) (k k2 : String)
    (v : β) :
    k2 ∈ dkeys (dinsert d k v) ↔ k2 = k ∨ k2 ∈ dkeys d := by
  induction d with
  | nil => simp [dinsert, dkeys]
  | cons p ps ih =>
    by_cases h1 : p.1 = k
    · subst h1
      simp only [dinsert, beq_self_eq_true, if_pos, dkeys, List.map_cons,
        List.mem_cons]
      tauto
    · have hb : (p.1 == k) = false := beq_eq_false_iff_ne.mpr h1
      have hstep : dinsert (p :: ps) k v = p :: dinsert ps k v := by
        simp [dinsert, hb]
      rw [hstep]
      simp only [dkeys, List.map_cons, List.mem_cons] at ih ⊢
      rw [ih]
      tauto

theorem length_dinsert {β : Type} (d : List (String × β)) (k : String) (v : β) :
    (dinsert d k v).length ≤ d.length + 1 := by
  induction d with
  | nil => simp [dinsert]
  | cons p ps ih =>
    by_cases h1 : p.1 = k
    · simp [dinsert, h1]
    · have hb : (p.1 == k) = false := beq_eq_false_iff_ne.mpr h1
      have hstep : dinsert (p :: ps) k v = p :: dinsert ps k v := by
        simp [dinsert, hb]
      rw [hstep]
      simp only [List.length_cons]
      have := ih
      omega

/-! ## Service records and the port/proto merge

`_cmd_load_nmap` and `_cmd_add_service` (src/htbcli/shell.py) merge a list of
incoming service records into the context's service list through a Python
dict keyed by f-string "<port>/<proto>":

    merged = dict with key(s) for s in existing services
    for s in incoming: merged[key(s)] = s

The spec names this operation `mergeServices`. -/

/-- Canonical shape of one discovered network service (spec section 3). -/
structure ServiceRecord where
  port : Int
  proto : String
  state : String
  service : String
  product : String
  version : String
deriving Repr, DecidableEq

/-- Identity key of a service record, the Python f-string
"<port>/<proto>". -/
def skey (s : ServiceRecord) : String :=
  toString s.port ++ "/" ++ s.proto

/-- One dict-update step of the merge loop. -/
def mergeStep (d : List (String × ServiceRecord)) (s : ServiceRecord) :
    List (String × ServiceRecord) :=
  dinsert d (skey s) s

/-- Dict comprehension over the existing service list (first line of the
merge in `_cmd_load_nmap` / `_cmd_add_service`). -/
def dictOfServices (l : List ServiceRecord) : List (String × ServiceRecord) :=
  l.foldl mergeStep []

/-- Merge of incoming service records into the existing list, keyed by
"<port>/<proto>" (spec section 4.2, `mergeServices`). -/
def mergeServices (existing incoming : List ServiceRecord) :
    List (String × ServiceRecord) :=
  incoming.foldl mergeStep (dictOfServices existing)

/-- Record that wins for key `k` in list `l` under last-writer-wins: the last
element of `l` whose service key is `k`. -/
def lookupLast (l : List ServiceRecord) (k : String) : Option ServiceRecord :=
  match l with
  | [] => none
  | s :: rest => (lookupLast rest k).or (if skey s == k then some s else none)

theorem dlookup_foldl_mergeStep (l : List ServiceRecord)
    (d : List (String × ServiceRecord)) (k : String) :
    dlookup (l.foldl mergeStep d) k = (lookupLast l k).or (dlookup d k) := by
  induction l generalizing d with
  | nil => simp [lookupLast]
  | cons s rest ih =>
    rw [List.foldl_cons, ih, lookupLast, Option.or_assoc]
    have hstep : dlookup (mergeStep d s) k =
        ((if skey s == k then some s else none).or (dlookup d k)) := by
      rw [mergeStep, dlookup_dinsert]
      by_cases hk : skey s = k
      · simp [hk]
      · have hb : (skey s == k) = false := beq_eq_false_iff_ne.mpr hk
        simp [hb]
    rw [hstep]

theorem mem_dkeys_foldl_mergeStep (l : List ServiceRecord)
    (d : List (String × ServiceRecord)) (k : String) :
    k ∈ dkeys (l.foldl mergeStep d) ↔ k ∈ l.map skey ∨ k ∈ dkeys d := by
  induction l generalizing d with
  | nil => simp
  | cons s rest ih =>
    rw [List.foldl_cons, ih]
    rw [show mergeStep d s = dinsert d (skey s) s from rfl]
    rw [mem_dkeys_dinsert]
    simp only [List.map_cons, List.mem_cons]
    tauto

theorem length_foldl_mergeStep (l : List ServiceRecord)
    (d : List (String × ServiceRecord)) :
    (l.foldl mergeStep d).length ≤ d.length + l.length := by
  induction l generalizing d with
  | nil => simp
  | cons s rest ih =>
    rw [List.foldl_cons]
    calc (rest.foldl mergeStep (mergeStep d s)).length
        ≤ (mergeStep d s).length + rest.length := ih (mergeStep d s)
      _ ≤ (d.length + 1) + rest.length := by
          have := length_dinsert d (skey s) s
          rw [mergeStep]; omega
      _ = d.length + (rest.length + 1) := by omega
      _ = d.length + (s :: rest).length := by rw [List.length_cons]

theorem lookupLast_isSome_iff (l : List ServiceRecord) (k : String) :
    (lookupLast l k).isSome = true ↔ k ∈ l.map skey := by
  induction l with
  | nil => simp [lookupLast]
  | cons s rest ih =>
    rw [lookupLast]
    by_cases hk : skey s = k
    · simp [hk, Option.or]
      cases lookupLast rest k <;> simp
    · have hb : (skey s == k) = false := beq_eq_false_iff_ne.mpr hk
      have hnone : (if skey s == k then some s else (none : Option ServiceRecord)) = none := by
        simp [hb]
      rw [hnone, Option.or_none, ih]
      simp only [List.map_cons, List.mem_cons]
      constructor
      · exact Or.inr
      · rintro (h | h)
        · exact absurd h.symm hk
        · exact h

/-- C1: for service lists A (existing) and B (incoming) merged by
`mergeServices` keyed by "<port>/<proto>", the key set of the result is
exactly the union of the keys of A and B, the value at each key is the record
from B when B contains that key and otherwise the record from A
(last-writer-wins), and the size of the result is at most |A| + |B|. -/
theorem mergeServices_union_lww_size (A B : List ServiceRecord) :
    (∀ k, k ∈ dkeys (mergeServices A B) ↔ k ∈ A.map skey ∨ k ∈ B.map skey) ∧
    (∀ k, dlookup (mergeServices A B) k =
      if k ∈ B.map skey then lookupLast B k else lookupLast A k) ∧
    (mergeServices A B).length ≤ A.length + B.length := by
  refine ⟨?_, ?_, ?_⟩
  · intro k
    rw [mergeServices, mem_dkeys_foldl_mergeStep, dictOfServices,
      mem_dkeys_foldl_mergeStep]
    simp only [dkeys, List.map_nil, List.not_mem_nil, or_false]
    tauto
  · intro k
    rw [mergeServices, dlookup_foldl_mergeStep, dictOfServices,
      dlookup_foldl_mergeStep]
    simp only [dlookup, Option.or_none]
    by_cases hm : k ∈ B.map skey
    · rcases Option.isSome_iff_exists.mp ((lookupLast_isSome_iff B k).mpr hm)
        with ⟨r, hr⟩
      simp [hm, hr, Option.or]
    · have hnone : lookupLast B k = none := by
        rcases h : lookupLast B k with _ | r
        · rfl
        · exact absurd ((lookupLast_isSome_iff B k).mp (by simp [h])) hm
      simp [hm, hnone]
  · rw [mergeServices]
    calc (B.foldl mergeStep (dictOfServices A)).length
        ≤ (dictOfServices A).length + B.length :=
          length_foldl_mergeStep B (dictOfServices A)
      _ ≤ (([] : List (String × ServiceRecord)).length + A.length) + B.length := by
          have := length_foldl_mergeStep A ([] : List (String × ServiceRecord))
          rw [dictOfServices]; omega
      _ = A.length + B.length := by simp

/-! ## Suggestion engine (src/htbcli/suggestions.py)

The suggestion functions read their inputs through Python `dict.get` with
defaults, so their service argument is modelled by a record of optional
fields (`none` = key absent).  Only the fields the functions read are
carried: `port`, `proto`, `service`. -/

/-- Service record as consumed by the suggestion engine: a Python dict whose
keys may be absent. -/
structure SvcDict where
  port : Option Int
  proto : Option String
  service : Option String
deriving Repr, DecidableEq

/-- Credential dict as built by `_cmd_add_cred`: user, pass and service are
always present (a missing value behaves like "" in every use below, which is
how the source reads them through truthiness and `.get(..., "")`). -/
structure Credential where
  user : String
  pass : String
  service : String
deriving Repr, DecidableEq

/-- Model of `int(s.get("port", 0) or 0)`: an absent port (Python `None`)
falls back to 0. -/
def pyPort (s : SvcDict) : Int :=
  match s.port with
  | none => 0
  | some p => p

/-- Model of `str(s.get("service", "")).lower()`. -/
def pyServiceName (s : SvcDict) : String :=
  pyLower (s.service.getD "")

/-- Model of `_svc_name`: the Python f-string
"<port>/<proto> <name>" followed by `.strip()`; an absent port renders as
str(None) = "None", an absent proto defaults to "tcp". -/
def svcName (s : SvcDict) : String :=
  let port := match s.port with
    | none => "None"
    | some p => toString p
  pyStrip (port ++ "/" ++ s.proto.getD "tcp" ++ " " ++ s.service.getD "")

/-- Model of a Python string truthiness test on an optional value: yields
the string only when present and non-empty. -/
def truthyStr : Option String → Option String
  | none => none
  | some t => if t == "" then none else some t

/-- Lowercased service names of all services (line 38 of suggestions.py). -/
def svcNamesLower (services : List SvcDict) : List String :=
  services.map (fun x => pyLower (x.service.getD ""))

/-- The credential-scanning loop of `next_steps_from_services` (lines 40-44):
first credential whose lowercased non-empty service field is a substring of
one of the service names. -/
def pickCredLoop (creds : List Credential) (names : List String) :
    Option Credential :=
  match creds with
  | [] => none
  | c :: rest =>
    let sv := pyLower c.service
    if sv != "" && names.any (fun n => pyIn sv n) then some c
    else pickCredLoop rest names

/-- Credential preferred for template substitution (lines 36-46): the loop's
pick, else the first credential; nothing when `creds` is empty (the whole
block is guarded by `if creds:`). -/
def pickCred (creds : List Credential) (services : List SvcDict) :
    Option Credential :=
  match creds with
  | [] => none
  | c0 :: _ =>
    match pickCredLoop creds (svcNamesLower services) with
    | some c => some c
    | none => some c0

/-- Model of `cred_user = str(pick.get("user")) if pick.get("user") else
None`: the user only when the pick exists and its user is non-empty. -/
def credUser (pick : Option Credential) : Option String :=
  match pick with
  | none => none
  | some c => if c.user == "" then none else some c.user

/-- Model of the matching assignment for `cred_pass`. -/
def credPass (pick : Option Credential) : Option String :=
  match pick with
  | none => none
  | some c => if c.pass == "" then none else some c.pass

/-- The three fixed generic reconnaissance tips (lines 25-29). -/
def genericSteps : List String :=
  ["Run full TCP scan if not already: nmap -p- -sC -sV -oA full <target>",
   "If web found, try: whatweb, feroxbuster or ffuf for directories",
   "If creds found anywhere, try SSH/RDP/WinRM reuse"]

/-- Target-specific lines the smb rule appends when `target` is truthy
(lines 78-82). -/
def smbTargetLines (target : Option String) : List String :=
  match truthyStr target with
  | some t =>
    ("Example: smbclient //" ++ t ++ "/backups -N -c \x27ls; get prod.dtsConfig\x27") ::
    ["Extract creds from prod.dtsConfig (ConnectionString): grep -E \x27User ID|Password\x27 prod.dtsConfig"]
  | none => []

/-- Target- and credential-substituted lines of the mssql rule
(lines 105-117): the full command chain when target, user and password are
all available, the prompt-for-pass variant when only the target is. -/
def mssqlCredLines (target credU credP : Option String) : List String :=
  match truthyStr target, credU, credP with
  | some t, some u, some p =>
    ("Login: mssqlclient.py " ++ u ++ ":" ++ p ++ "@" ++ t ++ " -windows-auth") ::
    "Enable xp_cmdshell: EXEC sp_configure \x27show advanced options\x27, 1; RECONFIGURE; EXEC sp_configure \x27xp_cmdshell\x27, 1; RECONFIGURE;" ::
    "Test: EXEC xp_cmdshell \x27whoami\x27;" ::
    "List users: EXEC xp_cmdshell \x27dir C:\\Users\x27;" ::
    ["Read user flag (adjust user folder): EXEC xp_cmdshell \x27type C:\\Users\\<user>\\Desktop\\user.txt\x27;"]
  | some t, _, _ =>
    ("Login (prompt for pass): mssqlclient.py <user>@" ++ t ++ " -windows-auth") ::
    ["Then enable xp_cmdshell and execute commands as above"]
  | none, _, _ => []

/-- Advisory lines accumulated for one service by the rule table of
`next_steps_from_services` (lines 50-134): each `if` of the source
contributes its block, in source order. -/
def stepsFor (s : SvcDict) (target : Option String)
    (credU credP : Option String) : List String :=
  (if pyPort s == 80 || pyPort s == 8080 || pyPort s == 8000 ||
      pyPort s == 8888 || pyIn "http" (pyServiceName s) then
    "HTTP enum: whatweb http://<target>:<port>" ::
    "Dir brute: ffuf -u http://<target>:<port>/FUZZ -w /usr/share/seclists/Discovery/Web-Content/raft-medium-directories.txt -ic" ::
    ["Tech stack IDs, robots.txt, /.git/, backups, upload forms"]
   else []) ++
  (if pyPort s == 443 || pyIn "https" (pyServiceName s) then
    "HTTPS: whatweb https://<target>:443" ::
    ["Check TLS and vhosts; try httpx -title -status -ip -mc 200,301,302 https://<target>"]
   else []) ++
  (if pyPort s == 22 || pyIn "ssh" (pyServiceName s) then
    "Try default/weak creds if hints: ssh <user>@<target>" ::
    ["Key-based attempts if id_rsa found; check allowroot, banner"]
   else []) ++
  (if pyPort s == 139 || pyPort s == 445 || pyIn "smb" (pyServiceName s) then
    "List shares: smbclient -L //<target> -N" ::
    "Anonymous access (try backups): smbclient //<target>/backups -N" ::
    "Enum: nxc smb <target> -u \x27\x27 -p \x27\x27 --shares" ::
    smbTargetLines target
   else []) ++
  (if pyPort s == 21 || pyIn "ftp" (pyServiceName s) then
    "Anonymous login: ftp <target> (user: anonymous)" ::
    ["Mirror files, look for creds/scripts"]
   else []) ++
  (if pyPort s == 25 || pyIn "smtp" (pyServiceName s) then
    ["Enum users: smtp-user-enum -M VRFY -U users.txt -t <target>"]
   else []) ++
  (if pyPort s == 3306 || pyIn "mysql" (pyServiceName s) then
    "Try creds if found: mysql -h <target> -u <user> -p" ::
    ["File read via LOAD_FILE if perms; check version, users"]
   else []) ++
  (if pyPort s == 5432 || pyIn "postgres" (pyServiceName s) then
    ["psql -h <target> -U <user> -W; enumerate dbs, creds"]
   else []) ++
  (if pyPort s == 1433 || pyIn "mssql" (pyServiceName s) then
    "mssqlclient.py: authenticate and enable xp_cmdshell, then execute" ::
    mssqlCredLines target credU credP
   else []) ++
  (if pyPort s == 6379 || pyIn "redis" (pyServiceName s) then
    ["redis-cli -h <target> info; check unauth, write ssh-key trick"]
   else []) ++
  (if pyPort s == 111 || pyPort s == 2049 || pyIn "nfs" (pyServiceName s) then
    "Showmount: showmount -e <target>" ::
    ["Mount rw export: sudo mount -t nfs <target>:/export /mnt/nfs"]
   else []) ++
  (if pyPort s == 5985 || pyIn "winrm" (pyServiceName s) then
    ["evil-winrm -i <target> -u <user> -p <pass>"]
   else []) ++
  (if pyPort s == 3389 || pyIn "rdp" (pyServiceName s) then
    ["xfreerdp /v:<target> /u:<user> /p:<pass> /cert:ignore"]
   else [])

/-- Model of `next_steps_from_services` (suggestions.py lines 14-139). -/
def next_steps_from_services (services : List SvcDict) (verbose : Bool)
    (target : Option String) (creds : List Credential) :
    List (String × String) :=
  if services.isEmpty then []
  else
    (if verbose then [("General", String.intercalate "\n" genericSteps)]
     else []) ++
    services.filterMap (fun s =>
      let steps := stepsFor s target
        (credUser (pickCred creds services)) (credPass (pickCred creds services))
      if steps.isEmpty then none
      else some (svcName s, String.intercalate "\n" steps))

/-- Command lines accumulated for one service by the rule table of
`cheatsheets_for_services` (lines 149-200). -/
def cheatCmds (s : SvcDict) : List String :=
  (if pyPort s == 80 || pyPort s == 8080 || pyIn "http" (pyServiceName s) then
    "whatweb http://<target>:<port>" ::
    "ffuf -u http://<target>:<port>/FUZZ -w /usr/share/seclists/Discovery/Web-Content/raft-medium-directories.txt -ic" ::
    ["gobuster dir -u http://<target>:<port>/ -w /usr/share/wordlists/dirb/common.txt -k"]
   else []) ++
  (if pyPort s == 22 || pyIn "ssh" (pyServiceName s) then
    "ssh <user>@<target> -p <port>" ::
    ["ssh -i id_rsa <user>@<target>"]
   else []) ++
  (if pyPort s == 139 || pyPort s == 445 || pyIn "smb" (pyServiceName s) then
    "smbclient -L //<target> -N" ::
    "smbclient //<target>/share -N" ::
    ["nxc smb <target> -u \x27\x27 -p \x27\x27 --shares"]
   else []) ++
  (if pyPort s == 21 || pyIn "ftp" (pyServiceName s) then
    "ftp <target>" ::
    ["lftp -u anonymous,anonymous <target>"]
   else []) ++
  (if pyPort s == 3306 || pyIn "mysql" (pyServiceName s) then
    ["mysql -h <target> -P <port> -u <user> -p"]
   else []) ++
  (if pyPort s == 5432 || pyIn "postgres" (pyServiceName s) then
    ["psql -h <target> -p <port> -U <user> -W"]
   else []) ++
  (if pyPort s == 6379 || pyIn "redis" (pyServiceName s) then
    ["redis-cli -h <target> -p <port> info"]
   else []) ++
  (if pyPort s == 111 || pyPort s == 2049 || pyIn "nfs" (pyServiceName s) then
    "showmount -e <target>" ::
    ["sudo mount -t nfs <target>:/export /mnt/nfs"]
   else []) ++
  (if pyPort s == 5985 || pyIn "winrm" (pyServiceName s) then
    ["evil-winrm -i <target> -u <user> -p <pass>"]
   else []) ++
  (if pyPort s == 3389 || pyIn "rdp" (pyServiceName s) then
    ["xfreerdp /v:<target> /u:<user> /p:<pass> /cert:ignore"]
   else [])

/-- One step of the cheat-sheet accumulation loop: services matching zero
rules are skipped, others set `cheats[key] = cmds`. -/
def cheatFoldStep (d : List (String × List String)) (s : SvcDict) :
    List (String × List String) :=
  let cmds := cheatCmds s
  if cmds.isEmpty then d else dinsert d (svcName s) cmds

/-- Model of `cheatsheets_for_services` (suggestions.py lines 142-208). -/
def cheatsheets_for_services (services : List SvcDict) :
    List (String × String) :=
  if services.isEmpty then []
  else
    (services.foldl cheatFoldStep []).map
      (fun kv => (kv.1, String.intercalate "\n" kv.2))

/-! ## Rule-match predicates for the two classification tables -/

/-- A service matches at least one rule of the `next_steps_from_services`
classification table (spec section 4.3). -/
def suggestMatch (s : SvcDict) : Bool :=
  (pyPort s == 80 || pyPort s == 8080 || pyPort s == 8000 ||
    pyPort s == 8888 || pyIn "http" (pyServiceName s)) ||
  (pyPort s == 443 || pyIn "https" (pyServiceName s)) ||
  (pyPort s == 22 || pyIn "ssh" (pyServiceName s)) ||
  (pyPort s == 139 || pyPort s == 445 || pyIn "smb" (pyServiceName s)) ||
  (pyPort s == 21 || pyIn "ftp" (pyServiceName s)) ||
  (pyPort s == 25 || pyIn "smtp" (pyServiceName s)) ||
  (pyPort s == 3306 || pyIn "mysql" (pyServiceName s)) ||
  (pyPort s == 5432 || pyIn "postgres" (pyServiceName s)) ||
  (pyPort s == 1433 || pyIn "mssql" (pyServiceName s)) ||
  (pyPort s == 6379 || pyIn "redis" (pyServiceName s)) ||
  (pyPort s == 111 || pyPort s == 2049 || pyIn "nfs" (pyServiceName s)) ||
  (pyPort s == 5985 || pyIn "winrm" (pyServiceName s)) ||
  (pyPort s == 3389 || pyIn "rdp" (pyServiceName s))

/-- A service matches at least one rule of the `cheatsheets_for_services`
table: a reduced table whose web rule covers only ports 80/8080, and which
has no 443/https, 25/smtp or 1433/mssql rule. -/
def cheatMatch (s : SvcDict) : Bool :=
  (pyPort s == 80 || pyPort s == 8080 || pyIn "http" (pyServiceName s)) ||
  (pyPort s == 22 || pyIn "ssh" (pyServiceName s)) ||
  (pyPort s == 139 || pyPort s == 445 || pyIn "smb" (pyServiceName s)) ||
  (pyPort s == 21 || pyIn "ftp" (pyServiceName s)) ||
  (pyPort s == 3306 || pyIn "mysql" (pyServiceName s)) ||
  (pyPort s == 5432 || pyIn "postgres" (pyServiceName s)) ||
  (pyPort s == 6379 || pyIn "redis" (pyServiceName s)) ||
  (pyPort s == 111 || pyPort s == 2049 || pyIn "nfs" (pyServiceName s)) ||
  (pyPort s == 5985 || pyIn "winrm" (pyServiceName s)) ||
  (pyPort s == 3389 || pyIn "rdp" (pyServiceName s))

/-- A service matches some rule of the suggest table through its name
substring alone (the port-independent half of each rule). -/
def nameMatch (s : SvcDict) : Bool :=
  pyIn "http" (pyServiceName s) || pyIn "https" (pyServiceName s) ||
  pyIn "ssh" (pyServiceName s) || pyIn "smb" (pyServiceName s) ||
  pyIn "ftp" (pyServiceName s) || pyIn "smtp" (pyServiceName s) ||
  pyIn "mysql" (pyServiceName s) || pyIn "postgres" (pyServiceName s) ||
  pyIn "mssql" (pyServiceName s) || pyIn "redis" (pyServiceName s) ||
  pyIn "nfs" (pyServiceName s) || pyIn "winrm" (pyServiceName s) ||
  pyIn "rdp" (pyServiceName s)

theorem ruleLast_eq_nil (b : Bool) (x : String) (xs : List String) :
    ((if b then x :: xs else []) = [] ↔ b = false) := by
  cases b <;> simp

theorem stepsFor_eq_nil_iff (s : SvcDict) (target credU credP : Option String) :
    stepsFor s target credU credP = [] ↔ suggestMatch s = false := by
  rw [stepsFor, suggestMatch]
  simp only [List.append_eq_nil, ruleLast_eq_nil, Bool.or_eq_false_iff,
    and_assoc]

theorem cheatCmds_eq_nil_iff (s : SvcDict) :
    cheatCmds s = [] ↔ cheatMatch s = false := by
  rw [cheatCmds, cheatMatch]
  simp only [List.append_eq_nil, ruleLast_eq_nil, Bool.or_eq_false_iff, and_assoc]

theorem cheatMatch_imp_suggestMatch (s : SvcDict) :
    cheatMatch s = true → suggestMatch s = true := by
  rw [cheatMatch, suggestMatch]
  simp only [Bool.or_eq_true]
  tauto

theorem mem_titles_cheatFold (l : List SvcDict)
    (d : List (String × List String)) (k : String) :
    k ∈ dkeys (l.foldl cheatFoldStep d) ↔
      (∃ s ∈ l, cheatCmds s ≠ [] ∧ svcName s = k) ∨ k ∈ dkeys d := by
  induction l generalizing d with
  | nil => simp
  | cons s rest ih =>
    rw [List.foldl_cons, ih]
    by_cases hc : cheatCmds s = []
    · have hstep : cheatFoldStep d s = d := by
        simp [cheatFoldStep, hc]
      rw [hstep]
      simp only [List.mem_cons]
      constructor
      · rintro (⟨x, hx, hne, hk⟩ | h)
        · exact Or.inl ⟨x, Or.inr hx, hne, hk⟩
        · exact Or.inr h
      · rintro (⟨x, (rfl | hx), hne, hk⟩ | h)
        · exact absurd hc hne
        · exact Or.inl ⟨x, hx, hne, hk⟩
        · exact Or.inr h
    · have hne : (cheatCmds s).isEmpty = false := by
        cases hcc : cheatCmds s
        · exact absurd hcc hc
        · rfl
      have hstep : cheatFoldStep d s = dinsert d (svcName s) (cheatCmds s) := by
        simp [cheatFoldStep, hne]
      rw [hstep, mem_dkeys_dinsert]
      simp only [List.mem_cons]
      constructor
      · rintro (⟨x, hx, hxe, hk⟩ | (rfl | h))
        · exact Or.inl ⟨x, Or.inr hx, hxe, hk⟩
        · exact Or.inl ⟨s, Or.inl rfl, hc, rfl⟩
        · exact Or.inr h
      · rintro (⟨x, (rfl | hx), hxe, hk⟩ | h)
        · exact Or.inr (Or.inl hk.symm)
        · exact Or.inl ⟨x, hx, hxe, hk⟩
        · exact Or.inr (Or.inr h)

theorem mem_titles_cheatsheets (services : List SvcDict) (k : String) :
    (∃ e ∈ cheatsheets_for_services services, e.1 = k) ↔
      ∃ s ∈ services, cheatCmds s ≠ [] ∧ svcName s = k := by
  rw [cheatsheets_for_services]
  cases services with
  | nil => simp
  | cons s rest =>
    rw [if_neg (by simp)]
    constructor
    · rintro ⟨e, he, hek⟩
      rcases List.mem_map.mp he with ⟨kv, hkv, rfl⟩
      simp only at hek
      subst hek
      have hmem : kv.1 ∈ dkeys ((s :: rest).foldl cheatFoldStep []) :=
        List.mem_map.mpr ⟨kv, hkv, rfl⟩
      rcases (mem_titles_cheatFold (s :: rest) [] kv.1).mp hmem with h | h
      · exact h
      · simp [dkeys] at h
    · intro h
      have : k ∈ dkeys ((s :: rest).foldl cheatFoldStep []) :=
        (mem_titles_cheatFold (s :: rest) [] k).mpr (Or.inl h)
      rcases List.mem_map.mp this with ⟨kv, hkv, rfl⟩
      exact ⟨(kv.1, String.intercalate "\n" kv.2), List.mem_map.mpr ⟨kv, hkv, rfl⟩, rfl⟩

theorem suggestMatch_port0 (s : SvcDict) (hp : s.port = none) :
    suggestMatch s = nameMatch s := by
  have hp0 : pyPort s = 0 := by simp [pyPort, hp]
  rw [suggestMatch, nameMatch, hp0]
  simp

/-- C2 counterexample: services on port 25 named "smtp", on bare port 443,
on port 1433 named "mssql", and on ports 8000/8888 all match the suggest
classification table, yet none of them yields a cheatsheet entry, so
`cheatsheets_for_services` does not classify against the same table as
`next_steps_from_services`. -/
theorem cheatsheets_differ_from_suggest_cex :
    cheatsheets_for_services [⟨some 25, some "tcp", some "smtp"⟩] = [] ∧
    cheatsheets_for_services [⟨some 443, some "tcp", some ""⟩] = [] ∧
    cheatsheets_for_services [⟨some 1433, some "tcp", some "mssql"⟩] = [] ∧
    cheatsheets_for_services [⟨some 8000, some "tcp", some ""⟩] = [] ∧
    cheatsheets_for_services [⟨some 8888, some "tcp", some ""⟩] = [] ∧
    next_steps_from_services [⟨some 25, some "tcp", some "smtp"⟩] false none []
      ≠ [] := by
  refine ⟨by decide, by decide, by decide, by decide, by decide, by decide⟩

/-- C2 amended: `cheatsheets_for_services` classifies each record against a
reduced version of the suggest table (web rule restricted to ports 80/8080 or
name "http"; no 443/https, 25/smtp or 1433/mssql rules): a record yields a
cheatsheet entry exactly when it matches at least one rule of the reduced
table, and every reduced-table match is also a suggest-table match. -/
theorem cheatsheets_reduced_table (services : List SvcDict) :
    (∀ k, (∃ e ∈ cheatsheets_for_services services, e.1 = k) ↔
        ∃ s ∈ services, cheatMatch s = true ∧ svcName s = k) ∧
    (∀ s : SvcDict, cheatMatch s = true → suggestMatch s = true) := by
  constructor
  · intro k
    rw [mem_titles_cheatsheets]
    constructor
    · rintro ⟨s, hs, hne, hk⟩
      refine ⟨s, hs, ?_, hk⟩
      cases hcm : cheatMatch s
      · exact absurd ((cheatCmds_eq_nil_iff s).mpr hcm) hne
      · rfl
    · rintro ⟨s, hs, hcm, hk⟩
      refine ⟨s, hs, ?_, hk⟩
      intro hnil
      have hfalse := (cheatCmds_eq_nil_iff s).mp hnil
      rw [hcm] at hfalse
      simp at hfalse
  · exact cheatMatch_imp_suggestMatch

/-- C3 counterexample: a record with no "port" field but service name "http"
is not silently excluded: it matches the web rule through the name substring
and contributes an output entry. -/
theorem portless_named_record_not_excluded_cex :
    next_steps_from_services [⟨none, none, some "http"⟩] false none [] ≠ []
      := by decide

/-- C3 amended: the suggestion engine never fails; a record with no "port"
field is treated as port 0, which matches no port-number rule, so the record
matches the table exactly when its service name matches a name-substring
rule; with no name match it contributes no output entry and is silently
excluded, not an error. -/
theorem suggest_portless_port0_name_only :
    (∀ s : SvcDict, s.port = none →
      pyPort s = 0 ∧ suggestMatch s = nameMatch s) ∧
    (∀ (s : SvcDict) (target credU credP : Option String),
      suggestMatch s = false → stepsFor s target credU credP = []) ∧
    (∀ (s : SvcDict) (verbose : Bool) (target : Option String)
        (creds : List Credential), s.port = none → nameMatch s = false →
      next_steps_from_services [s] verbose target creds =
        if verbose then [("General", String.intercalate "\n" genericSteps)]
        else []) := by
  refine ⟨?_, ?_, ?_⟩
  · intro s hp
    exact ⟨by simp [pyPort, hp], suggestMatch_port0 s hp⟩
  · intro s target credU credP h
    exact (stepsFor_eq_nil_iff s target credU credP).mpr h
  · intro s verbose target creds hp hn
    have hnil : stepsFor s target (credUser (pickCred creds [s]))
        (credPass (pickCred creds [s])) = [] :=
      (stepsFor_eq_nil_iff _ _ _ _).mpr (by rw [suggestMatch_port0 s hp]; exact hn)
    rw [next_steps_from_services, if_neg (by simp)]
    simp [hnil]

/-- Claim-side description of credential selection (spec section 4.3 step 3):
first credential whose non-empty lowercased service field is a substring of
some service's lowercased name; else the first credential; nothing when the
list is empty. -/
def specPickCred (creds : List Credential) (services : List SvcDict) :
    Option Credential :=
  (creds.find? (fun c => decide (pyLower c.service ≠ "" ∧
      ∃ n ∈ svcNamesLower services, (pyLower c.service).data <:+: n.data))).or
    creds.head?

theorem pickCredLoop_eq_find (creds : List Credential) (names : List String) :
    pickCredLoop creds names =
      creds.find? (fun c => pyLower c.service != "" &&
        names.any (fun n => pyIn (pyLower c.service) n)) := by
  induction creds with
  | nil => rfl
  | cons c rest ih =>
    simp only [pickCredLoop, List.find?]
    cases h : (pyLower c.service != "" &&
        names.any (fun n => pyIn (pyLower c.service) n)) <;>
      simp [h, ih]

theorem credMatch_decide_eq (c : Credential) (names : List String) :
    (pyLower c.service != "" &&
        names.any (fun n => pyIn (pyLower c.service) n)) =
      decide (pyLower c.service ≠ "" ∧
        ∃ n ∈ names, (pyLower c.service).data <:+: n.data) := by
  rw [Bool.eq_iff_iff]
  simp [pyIn_iff, List.any_eq_true]

/-- C4: the credential selected by `next_steps_from_services` for template
substitution is the first credential whose non-empty service field
(lowercased) is a substring of some service's lowercased name, else the first
credential of the list; with an empty credential list nothing is selected and
no user/password substitution values exist. -/
theorem pickCred_selection (creds : List Credential) (services : List SvcDict) :
    pickCred creds services = specPickCred creds services ∧
    pickCred [] services = none ∧
    credUser (pickCred [] services) = none ∧
    credPass (pickCred [] services) = none := by
  refine ⟨?_, rfl, rfl, rfl⟩
  have hpred : (fun (c : Credential) => pyLower c.service != "" &&
      (svcNamesLower services).any (fun n => pyIn (pyLower c.service) n)) =
      (fun (c : Credential) => decide (pyLower c.service ≠ "" ∧
        ∃ n ∈ svcNamesLower services, (pyLower c.service).data <:+: n.data)) :=
    funext (fun c => credMatch_decide_eq c (svcNamesLower services))
  cases creds with
  | nil => rfl
  | cons c0 rest =>
    rw [specPickCred, ← hpred, ← pickCredLoop_eq_find]
    simp only [pickCred]
    cases h : pickCredLoop (c0 :: rest) (svcNamesLower services) <;>
      simp [h, Option.or]

set_option maxRecDepth 100000 in
/-- C5: for a service on port 1433 named "mssql" with target 10.10.10.5 and
credential sa/pw for service "mssql", the suggest output consists of the
General entry and one entry for the service whose lines include a login line
containing "sa", "pw" and "10.10.10.5", and no line of that entry contains
the generic prompt-for-pass variant. -/
theorem suggest_mssql_cred_substitution :
    next_steps_from_services [⟨some 1433, some "tcp", some "mssql"⟩] true
        (some "10.10.10.5") [⟨"sa", "pw", "mssql"⟩] =
      [("General", String.intercalate "\n" genericSteps),
       ("1433/tcp mssql", String.intercalate "\n"
         (stepsFor ⟨some 1433, some "tcp", some "mssql"⟩ (some "10.10.10.5")
           (some "sa") (some "pw")))] ∧
    (stepsFor ⟨some 1433, some "tcp", some "mssql"⟩ (some "10.10.10.5")
        (some "sa") (some "pw")).any
      (fun l => pyIn "sa" l && pyIn "pw" l && pyIn "10.10.10.5" l) = true ∧
    (stepsFor ⟨some 1433, some "tcp", some "mssql"⟩ (some "10.10.10.5")
        (some "sa") (some "pw")).all
      (fun l => !(pyIn "prompt for pass" l)) = true := by
  refine ⟨by decide, by decide, by decide⟩

/-! ## Challenge store (src/htbcli/storage.py)

One JSON file per challenge under the data directory, named "<name>.json".
The filesystem is modelled as an association list from filename to stored
content; a file is either a parseable challenge document or corrupt content
that json.load rejects.  `time.strftime "%Y-%m-%d %H:%M:%S"` timestamps are
modelled as naturals (the rendering is monotone in time), supplied to each
writing operation as a clock argument. -/

/-- One entry of the ask/quiz history list. -/
structure HistoryEntry where
  mode : String
  q : String
  a : String
deriving Repr, DecidableEq

/-- ChallengeContext document shape (spec section 3). -/
structure ChallengeDoc where
  name : String
  type : String
  target : Option String
  services : List ServiceRecord
  notes : List String
  creds : List Credential
  tried : List String
  history : List HistoryEntry
  artifacts : List (String × String)
  updated : Nat
deriving Repr, DecidableEq

/-- Content of one persisted file: a parseable challenge document, or
content `json.load` fails on. -/
inductive StoredFile where
  | doc (d : ChallengeDoc)
  | corrupt (raw : String)
deriving Repr, DecidableEq

/-- The challenge data directory: filename to file content. -/
abbrev FS := List (String × StoredFile)

/-- Failure modes of the store (spec section 7): missing document, or
unparseable document. -/
inductive StoreError where
  | notFound
  | corrupt
deriving Repr, DecidableEq

/-- Model of `ChallengeStore._path`: f-string "<name>.json". -/
def storePath (name : String) : String :=
  name ++ ".json"

/-- Model of `ChallengeStore.save` (storage.py lines 36-41): overwrite the
name and updated fields, then persist under the challenge's filename. -/
def storeSave (fs : FS) (name : String) (ctx : ChallengeDoc) (now : Nat) :
    FS :=
  dinsert fs (storePath name) (.doc { ctx with name := name, updated := now })

/-- Model of `ChallengeStore.load` (storage.py lines 32-34): read and parse
the file; a missing file raises NotFound, unparseable content Corrupt. -/
def storeLoad (fs : FS) (name : String) : Except StoreError ChallengeDoc :=
  match dlookup fs (storePath name) with
  | none => .error .notFound
  | some (.corrupt _) => .error .corrupt
  | some (.doc d) => .ok d

/-- Lexicographic comparison of character lists by code point, the order
Python uses to sort strings. -/
def lexLeChars : List Char → List Char → Bool
  | [], _ => true
  | _ :: _, [] => false
  | a :: as, b :: bs =>
    if a == b then lexLeChars as bs else decide (a.toNat < b.toNat)

/-- Model of Python string comparison `a <= b` (code-point lexicographic). -/
def pyStrLe (a b : String) : Bool :=
  lexLeChars a.data b.data

theorem lexLeChars_total (x y : List Char) :
    lexLeChars x y = true ∨ lexLeChars y x = true := by
  induction x generalizing y with
  | nil => exact Or.inl rfl
  | cons a as ih =>
    cases y with
    | nil => exact Or.inr rfl
    | cons b bs =>
      by_cases hab : a = b
      · subst hab
        rcases ih bs with h | h
        · exact Or.inl (by simp [lexLeChars, h])
        · exact Or.inr (by simp [lexLeChars, h])
      · have h1 : (a == b) = false := beq_eq_false_iff_ne.mpr hab
        have h2 : (b == a) = false := beq_eq_false_iff_ne.mpr (Ne.symm hab)
        have hne : a.toNat ≠ b.toNat := fun hc =>
          hab (Char.eq_of_val_eq (UInt32.toNat.inj hc))
        rcases Nat.lt_or_ge a.toNat b.toNat with hlt | hge
        · exact Or.inl (by simp [lexLeChars, h1, hlt])
        · have hlt : b.toNat < a.toNat := Nat.lt_of_le_of_ne hge (Ne.symm hne)
          exact Or.inr (by simp [lexLeChars, h2, hlt])

theorem lexLeChars_trans (x y z : List Char) (h1 : lexLeChars x y = true)
    (h2 : lexLeChars y z = true) : lexLeChars x z = true := by
  induction x generalizing y z with
  | nil => rfl
  | cons a as ih =>
    cases y with
    | nil => simp [lexLeChars] at h1
    | cons b bs =>
      cases z with
      | nil => simp [lexLeChars] at h2
      | cons c cs =>
        by_cases hab : a = b <;> by_cases hbc : b = c
        · subst hab; subst hbc
          simp only [lexLeChars, beq_self_eq_true, if_pos] at h1 h2 ⊢
          exact ih bs cs h1 h2
        · subst hab
          have hb1 : (a == c) = false := beq_eq_false_iff_ne.mpr hbc
          simp [lexLeChars, hb1] at h2 ⊢
          exact h2
        · subst hbc
          have hb1 : (a == b) = false := beq_eq_false_iff_ne.mpr hab
          simp [lexLeChars, hb1] at h1 ⊢
          exact h1
        · have hb1 : (a == b) = false := beq_eq_false_iff_ne.mpr hab
          have hb2 : (b == c) = false := beq_eq_false_iff_ne.mpr hbc
          simp [lexLeChars, hb1, hb2] at h1 h2
          by_cases hac : a = c
          · subst hac; exact absurd (Nat.lt_trans h1 h2) (Nat.lt_irrefl _)
          · have hb3 : (a == c) = false := beq_eq_false_iff_ne.mpr hac
            simp [lexLeChars, hb3]
            exact Nat.lt_trans h1 h2

theorem lexLeChars_antisymm (x y : List Char) (h1 : lexLeChars x y = true)
    (h2 : lexLeChars y x = true) : x = y := by
  induction x generalizing y with
  | nil =>
    cases y with
    | nil => rfl
    | cons b bs => simp [lexLeChars] at h2
  | cons a as ih =>
    cases y with
    | nil => simp [lexLeChars] at h1
    | cons b bs =>
      by_cases hab : a = b
      · subst hab
        simp only [lexLeChars, beq_self_eq_true, if_pos] at h1 h2
        rw [ih bs h1 h2]
      · have hb1 : (a == b) = false := beq_eq_false_iff_ne.mpr hab
        have hb2 : (b == a) = false := beq_eq_false_iff_ne.mpr (Ne.symm hab)
        simp [lexLeChars, hb1, hb2] at h1 h2
        exact absurd (Nat.lt_trans h1 h2) (Nat.lt_irrefl _)

instance : IsTotal String (fun a b => pyStrLe a b = true) :=
  ⟨fun a b => lexLeChars_total a.data b.data⟩

instance : IsTrans String (fun a b => pyStrLe a b = true) :=
  ⟨fun a b c h1 h2 => lexLeChars_trans a.data b.data c.data h1 h2⟩

instance : IsAntisymm String (fun a b => pyStrLe a b = true) :=
  ⟨fun a b h1 h2 => by
    cases a with
    | mk da =>
      cases b with
      | mk db =>
        rw [lexLeChars_antisymm da db h1 h2]⟩

/-- Model of Python `str.endswith` (the glob "*.json" filter). -/
def pyEndsWith (s suffix : String) : Bool :=
  hasPrefixChars suffix.data.reverse s.data.reverse

/-- One row of `ChallengeStore.list`: the name, type and updated fields. -/
structure ListEntry where
  name : String
  type : String
  updated : Nat
deriving Repr, DecidableEq

/-- The body of the `list` loop for one file: its entry when it parses, none
when opening/parsing raises (the `except Exception: continue` path). -/
def readListEntry (fs : FS) (fn : String) : Option ListEntry :=
  match dlookup fs fn with
  | some (.doc d) => some ⟨d.name, d.type, d.updated⟩
  | _ => none

/-- Model of `sorted(self.data_dir.glob("*.json"))`: the .json filenames in
lexicographic order. -/
def sortedFilenames (fs : FS) : List String :=
  List.insertionSort (fun a b : String => pyStrLe a b = true)
    ((dkeys fs).filter (fun fn => pyEndsWith fn ".json"))

/-- Model of `ChallengeStore.list` (storage.py lines 43-56). -/
def storeList (fs : FS) : List ListEntry :=
  (sortedFilenames fs).filterMap (readListEntry fs)

/-- Claim-side description of `list` (spec section 4.1): enumerate exactly
the parseable .json documents, in lexicographic filename order, and return
their name/type/updated rows. -/
def specStoreList (fs : FS) : List ListEntry :=
  (List.insertionSort (fun a b : String => pyStrLe a b = true)
      ((dkeys fs).filter (fun fn => pyEndsWith fn ".json" &&
        (readListEntry fs fn).isSome))).filterMap (readListEntry fs)

/-- A concrete context document whose name field disagrees with the key it
is saved under. -/
def c6Doc : ChallengeDoc :=
  { name := "beta", type := "machine", target := none, services := [],
    notes := [], creds := [], tried := [], history := [], artifacts := [],
    updated := 5 }

/-- C6 counterexample: saving a context under name "alpha" while its name
field is "beta" and loading it back yields a document whose name field -- a
field other than updated -- differs from the saved context, because save
overwrites the name field unconditionally. -/
theorem save_load_not_equal_except_updated_cex :
    storeLoad (storeSave [] "alpha" c6Doc 7) "alpha" =
      .ok { c6Doc with name := "alpha", updated := 7 } ∧
    c6Doc.name = "beta" ∧ ("alpha" : String) ≠ "beta" := by
  refine ⟨rfl, rfl, by decide⟩

/-- C6 amended: save immediately followed by load returns a document equal
to the given context in all fields except name, which is overwritten with
the given challenge name, and updated, which is set to the save-time clock
value and is later than or equal to the context's previous updated value
(the clock being monotone). -/
theorem save_then_load_roundtrip (fs : FS) (name : String)
    (ctx : ChallengeDoc) (now : Nat) (hclock : ctx.updated ≤ now) :
    storeLoad (storeSave fs name ctx now) name =
      .ok { ctx with name := name, updated := now } ∧
    ctx.updated ≤ ({ ctx with name := name, updated := now }).updated := by
  constructor
  · rw [storeSave, storeLoad, dlookup_dinsert]
    simp
  · simpa using hclock

theorem save_then_load_roundtrip_witness :
    storeLoad (storeSave [] "alpha" c6Doc 7) "alpha" =
      .ok { c6Doc with name := "alpha", updated := 7 } ∧
    c6Doc.updated ≤ ({ c6Doc with name := "alpha", updated := 7 }).updated :=
  save_then_load_roundtrip [] "alpha" c6Doc 7 (by decide)

theorem filterMap_eq_filterMap_filter_isSome {α β : Type} (f : α → Option β)
    (l : List α) :
    l.filterMap f = (l.filter (fun x => (f x).isSome)).filterMap f := by
  induction l with
  | nil => rfl
  | cons x xs ih =>
    cases h : f x <;>
      simp [List.filterMap_cons, List.filter_cons, h, ih]

theorem storeList_eq_spec (fs : FS) : storeList fs = specStoreList fs := by
  rw [storeList, specStoreList,
    filterMap_eq_filterMap_filter_isSome (readListEntry fs) (sortedFilenames fs)]
  congr 1
  have hcomm : (fun fn => (readListEntry fs fn).isSome &&
      pyEndsWith fn ".json") = (fun fn =>
      pyEndsWith fn ".json" && (readListEntry fs fn).isSome) :=
    funext (fun fn => Bool.and_comm _ _)
  have hperm : (List.filter (fun fn => (readListEntry fs fn).isSome)
        (sortedFilenames fs)).Perm
      ((dkeys fs).filter (fun fn => pyEndsWith fn ".json" &&
        (readListEntry fs fn).isSome)) := by
    have hp := (List.perm_insertionSort (fun a b : String => pyStrLe a b = true)
        ((dkeys fs).filter (fun fn => pyEndsWith fn ".json"))).filter
        (fun fn => (readListEntry fs fn).isSome)
    rw [List.filter_filter, hcomm] at hp
    exact hp
  have hperm2 : (List.filter (fun fn => (readListEntry fs fn).isSome)
        (sortedFilenames fs)).Perm
      (List.insertionSort (fun a b : String => pyStrLe a b = true)
        ((dkeys fs).filter (fun fn => pyEndsWith fn ".json" &&
          (readListEntry fs fn).isSome))) :=
    hperm.trans (List.perm_insertionSort _ _).symm
  exact List.eq_of_perm_of_sorted hperm2
    ((List.sorted_insertionSort _ _).filter _)
    (List.sorted_insertionSort _ _)

/-- Document for the challenge named alpha in the spec's list example. -/
def alphaDoc : ChallengeDoc :=
  { name := "alpha", type := "machine", target := none, services := [],
    notes := [], creds := [], tried := [], history := [], artifacts := [],
    updated := 3 }

/-- Document for the challenge named beta in the spec's list example. -/
def betaDoc : ChallengeDoc :=
  { name := "beta", type := "starting-point", target := none, services := [],
    notes := [], creds := [], tried := [], history := [], artifacts := [],
    updated := 4 }

/-- C7: `list` enumerates exactly the parseable persisted .json documents in
lexicographic filename order, returning the name/type/updated rows; every
returned row comes from a parseable document; and on a concrete store
holding alpha, beta and a corrupted file the corrupted file is excluded
without an error while both challenges are returned sorted by filename. -/
theorem storeList_sorted_skips_corrupt (fs : FS) :
    storeList fs = specStoreList fs ∧
    (∀ e ∈ storeList fs, ∃ fn d, fn ∈ dkeys fs ∧
      pyEndsWith fn ".json" = true ∧ dlookup fs fn = some (.doc d) ∧
      e = ⟨d.name, d.type, d.updated⟩) ∧
    storeList [("beta.json", .doc betaDoc),
        ("broken.json", .corrupt "not-json"),
        ("alpha.json", .doc alphaDoc)] =
      [⟨"alpha", "machine", 3⟩, ⟨"beta", "starting-point", 4⟩] := by
  refine ⟨storeList_eq_spec fs, ?_, by decide⟩
  intro e he
  rcases List.mem_filterMap.mp he with ⟨fn, hfn, hread⟩
  have hfn2 : fn ∈ (dkeys fs).filter (fun fn => pyEndsWith fn ".json") :=
    (List.perm_insertionSort (fun a b : String => pyStrLe a b = true) _).mem_iff.mp hfn
  rcases List.mem_filter.mp hfn2 with ⟨hmem, hends⟩
  rcases hcase : dlookup fs fn with _ | sf
  · simp [readListEntry, hcase] at hread
  · cases sf with
    | corrupt raw => simp [readListEntry, hcase] at hread
    | doc d =>
      simp only [readListEntry, hcase, Option.some.injEq] at hread
      exact ⟨fn, d, hmem, hends, hcase, hread.symm⟩

/-! ## Tried-list handling (`_cmd_mark_tried`, src/htbcli/shell.py 361-377) -/

/-- Model of the tried-list insert: append only when absent (exact,
case-sensitive match), the operation the spec names `appendUnique`. -/
def appendUnique (l : List String) (v : String) : List String :=
  if v ∈ l then l else l ++ [v]

/-- C9: appending an already-present keyword leaves the tried list
unchanged, and folding any sequence of `appendUnique` inserts over a
duplicate-free tried list never creates two exactly equal entries. -/
theorem appendUnique_no_duplicates (l : List String) (kws : List String)
    (v : String) :
    (v ∈ l → appendUnique l v = l) ∧
    (l.Nodup → (kws.foldl appendUnique l).Nodup) := by
  constructor
  · intro hv
    simp [appendUnique, hv]
  · induction kws generalizing l with
    | nil => intro h; simpa using h
    | cons k rest ih =>
      intro hnd
      rw [List.foldl_cons]
      refine ih (appendUnique l k) ?_
      by_cases hk : k ∈ l
      · simpa [appendUnique, hk] using hnd
      · rw [appendUnique, if_neg hk]
        exact List.Nodup.append hnd (List.nodup_singleton k)
          (List.disjoint_singleton.mpr hk)

/-- Model of `_cmd_mark_tried` acting on the store: load the current
challenge; when the keyword is absent from its tried list, append it and
save; when present (or the load fails) write nothing. -/
def cmd_mark_tried (fs : FS) (current : String) (kw : String) (now : Nat) :
    FS :=
  match storeLoad fs current with
  | .error _ => fs
  | .ok ctx =>
    if kw ∈ ctx.tried then fs
    else storeSave fs current { ctx with tried := ctx.tried ++ [kw] } now

/-- C10: when the keyword is already present in the current context's tried
list, `mark_tried` performs no save: the filesystem, and in particular the
persisted document with its updated timestamp, is left entirely
unchanged. -/
theorem mark_tried_present_writes_nothing (fs : FS) (current kw : String)
    (now : Nat) (ctx : ChallengeDoc)
    (hload : storeLoad fs current = .ok ctx) (hmem : kw ∈ ctx.tried) :
    cmd_mark_tried fs current kw now = fs ∧
    storeLoad (cmd_mark_tried fs current kw now) current = .ok ctx := by
  have h1 : cmd_mark_tried fs current kw now = fs := by
    rw [cmd_mark_tried, hload]
    simp [hmem]
  exact ⟨h1, by rw [h1, hload]⟩

/-- A stored challenge document whose tried list already holds "nmap". -/
def c10Doc : ChallengeDoc :=
  { name := "alpha", type := "machine", target := none, services := [],
    notes := [], creds := [], tried := ["nmap"], history := [],
    artifacts := [], updated := 3 }

theorem mark_tried_present_writes_nothing_witness :
    cmd_mark_tried [("alpha.json", .doc c10Doc)] "alpha" "nmap" 9 =
      [("alpha.json", .doc c10Doc)] ∧
    storeLoad (cmd_mark_tried [("alpha.json", .doc c10Doc)] "alpha" "nmap" 9)
      "alpha" = .ok c10Doc :=
  mark_tried_present_writes_nothing [("alpha.json", .doc c10Doc)] "alpha"
    "nmap" 9 c10Doc rfl (by decide)

/-! ## Scan-report parser (src/htbcli/parsers/nmap.py)

The parser reads a file and dispatches on its format: an .xml suffix or an
XML declaration selects the XML branch, anything else the line-oriented
gnmap branch.  The external XML library (`ET.fromstring`) and line splitting
are modelled at the boundary: a stored scan file is either an
already-tokenized XML element tree or a list of text lines, and the
traversal/extraction code below follows `_parse_xml` / `_parse_gnmap`
exactly.  Python `int(...)` on the port text is modelled by `pyToInt?`
(optional sign followed by decimal digits; `int` raises exactly when this
yields nothing for the simple numeric tokens involved). -/

/-- An XML element as `xml.etree.ElementTree` exposes it: a tag, an
attribute dict and a child list. -/
inductive XmlElem where
  | mk (tag : String) (attrs : List (String × String)) (children : List XmlElem)

/-- Tag of an element. -/
def XmlElem.tag : XmlElem → String
  | .mk t _ _ => t

/-- Attribute dict of an element. -/
def XmlElem.attrs : XmlElem → List (String × String)
  | .mk _ a _ => a

/-- Child elements of an element. -/
def XmlElem.children : XmlElem → List XmlElem
  | .mk _ _ c => c

/-- Model of `element.attrib.get(k)`. -/
def attrGet (attrs : List (String × String)) (k : String) : Option String :=
  (attrs.find? (fun p => p.1 == k)).map Prod.snd

/-- Decimal digit-string value, when the characters are one or more
digits. -/
def digitsToNat (cs : List Char) : Option Nat :=
  if !cs.isEmpty && cs.all Char.isDigit then
    some (cs.foldl (fun n c => n * 10 + (c.toNat - 48)) 0)
  else none

/-- Model of Python `int(text)` for the numeric tokens of a scan report:
an optional minus sign followed by decimal digits; `none` where `int`
raises ValueError. -/
def pyToInt? (s : String) : Option Int :=
  match s.data with
  | '-' :: rest => (digitsToNat rest).map (fun n => -(n : Int))
  | cs => (digitsToNat cs).map (fun n => (n : Int))

/-- Service record as the parser builds it: `state` is optional because the
XML branch stores Python `None` when a state element lacks the state
attribute. -/
structure NmapRecord where
  port : Int
  proto : String
  state : Option String
  service : String
  product : String
  version : String
deriving Repr, DecidableEq

/-- Failure modes of `parse_nmap`: missing path (FileNotFoundError) or a
parse-aborting error (ET.ParseError / ValueError from `int`). -/
inductive NmapError where
  | notFound
  | parseError
deriving Repr, DecidableEq

/-- One `port` element of the XML tree (lines 26-41): `none` when
`int(port.attrib.get("portid", "0"))` raises. -/
def parsePortEl (p : XmlElem) : Option NmapRecord :=
  match pyToInt? ((attrGet p.attrs "portid").getD "0") with
  | none => none
  | some pid =>
    some
      { port := pid
        proto := (attrGet p.attrs "protocol").getD "tcp"
        state :=
          match p.children.find? (fun c => c.tag == "state") with
          | some st => attrGet st.attrs "state"
          | none => some "unknown"
        service :=
          match p.children.find? (fun c => c.tag == "service") with
          | some se => (attrGet se.attrs "name").getD ""
          | none => ""
        product :=
          match p.children.find? (fun c => c.tag == "service") with
          | some se => (attrGet se.attrs "product").getD ""
          | none => ""
        version :=
          match p.children.find? (fun c => c.tag == "service") with
          | some se => (attrGet se.attrs "version").getD ""
          | none => "" }

/-- The `host/ports/port` elements of the tree, in document order. -/
def xmlPortElems (root : XmlElem) : List XmlElem :=
  (root.children.filter (fun c => c.tag == "host")).flatMap (fun h =>
    (h.children.filter (fun c => c.tag == "ports")).flatMap (fun ps =>
      ps.children.filter (fun c => c.tag == "port")))

/-- The sequential accumulation loop of `_parse_xml`: the first port element
whose portid `int` conversion raises aborts the whole parse. -/
def collectPorts : List XmlElem → Except NmapError (List NmapRecord)
  | [] => .ok []
  | p :: rest =>
    match parsePortEl p with
    | none => .error .parseError
    | some r =>
      match collectPorts rest with
      | .error e => .error e
      | .ok rs => .ok (r :: rs)

/-- Model of `_parse_xml` (lines 20-43): collect every port element, then
keep only the records whose state is "open". -/
def parseXml (root : XmlElem) : Except NmapError (List NmapRecord) :=
  match collectPorts (xmlPortElems root) with
  | .error e => .error e
  | .ok recs => .ok (recs.filter (fun s => s.state == some "open"))

/-- Split of a character list on a separator character, Python
`str.split(sep)` (always at least one group). -/
def splitOnChar (sep : Char) : List Char → List (List Char)
  | [] => [[]]
  | c :: rest =>
    match splitOnChar sep rest with
    | [] => if c == sep then [[], []] else [[c]]
    | g :: gs => if c == sep then [] :: g :: gs else (c :: g) :: gs

/-- The text following the first "Ports:" marker of a line with the leading
whitespace dropped: the captured group of the `Ports:\s*(.*)$` search.
`none` when the line has no marker. -/
def afterMarker : List Char → Option (List Char)
  | [] => none
  | c :: cs =>
    if hasPrefixChars "Ports:".data (c :: cs) then
      some (((c :: cs).drop 6).dropWhile Char.isWhitespace)
    else afterMarker cs

/-- The comma-separated port entries of one gnmap line (empty when the line
carries no "Ports:" section). -/
def parseGnmapLine (line : String) : List String :=
  match afterMarker line.data with
  | none => []
  | some cs => (splitOnChar ',' cs).map String.mk

/-- The slash-separated fields of one port entry, after stripping. -/
def gnmapParts (entry : String) : List String :=
  (splitOnChar '/' (pyStrip entry).data).map String.mk

/-- One port entry of a gnmap line (lines 51-74): skipped (`none`) when
empty after stripping, when it has fewer than five fields, when its port is
not an integer, or when its state is not "open". -/
def parseGnmapEntry (entry : String) : Option NmapRecord :=
  if pyStrip entry == "" then none
  else if (gnmapParts entry).length < 5 then none
  else
    match pyToInt? ((gnmapParts entry).getD 0 "") with
    | none => none
    | some port =>
      if (gnmapParts entry).getD 1 "" != "open" then none
      else
        some
          { port := port
            proto := (gnmapParts entry).getD 2 ""
            state := some ((gnmapParts entry).getD 1 "")
            service := (gnmapParts entry).getD 4 ""
            product := ""
            version := "" }

/-- Model of `_parse_gnmap` (lines 46-75). -/
def parseGnmap (lines : List String) : List NmapRecord :=
  lines.flatMap (fun line => (parseGnmapLine line).filterMap parseGnmapEntry)

/-- A stored scan file after format dispatch: an XML tree or gnmap text
lines. -/
inductive NmapFile where
  | xmlFile (root : XmlElem)
  | gnmapFile (lines : List String)

/-- Model of `parse_nmap` (lines 9-17): missing path raises NotFound,
otherwise the file is handed to the branch its format selects. -/
def parse_nmap (fs : List (String × NmapFile)) (path : String) :
    Except NmapError (List NmapRecord) :=
  match dlookup fs path with
  | none => .error .notFound
  | some (.xmlFile root) => parseXml root
  | some (.gnmapFile lines) => .ok (parseGnmap lines)

theorem collectPorts_not_notFound (l : List XmlElem) :
    collectPorts l ≠ .error .notFound := by
  induction l with
  | nil => simp [collectPorts]
  | cons p rest ih =>
    rw [collectPorts]
    cases hp : parsePortEl p with
    | none => simp
    | some r =>
      cases hc : collectPorts rest with
      | error e =>
        rw [hc] at ih
        simpa using ih
      | ok rs => simp

theorem parseGnmapEntry_state (entry : String) (r : NmapRecord)
    (h : parseGnmapEntry entry = some r) : r.state = some "open" := by
  rw [parseGnmapEntry] at h
  split at h
  · cases h
  · split at h
    · cases h
    · split at h
      · cases h
      · split at h
        · cases h
        · rename_i hcond
          have hopen : (gnmapParts entry).getD 1 "" = "open" := by
            simpa using hcond
          injection h with h
          rw [← h]
          show some ((gnmapParts entry).getD 1 "") = some "open"
          rw [hopen]

/-- An XML scan report whose single port element carries the non-integer
portid "abc". -/
def badPortXml : XmlElem :=
  .mk "nmaprun" []
    [.mk "host" []
      [.mk "ports" []
        [.mk "port" [("protocol", "tcp"), ("portid", "abc")]
          [.mk "state" [("state", "open")] [],
           .mk "service" [("name", "ssh")] []]]]]

/-- C8 counterexample: a present XML report containing one malformed entry
(non-integer portid) makes the whole parse fail with a parse error instead
of skipping the entry, so malformed entries are not always skipped. -/
theorem xml_malformed_port_fatal_cex :
    parse_nmap [("scan.xml", .xmlFile badPortXml)] "scan.xml" =
      .error .parseError ∧
    (dlookup [("scan.xml", NmapFile.xmlFile badPortXml)] "scan.xml").isSome =
      true := by
  exact ⟨rfl, rfl⟩

/-- C8 amended: `parse_nmap` fails with NotFound exactly when the path does
not exist; every record of a successful parse has state "open"; in the
line-oriented gnmap format an entry with too few fields or a non-integer
port is skipped and the gnmap parse never fails; in the XML format a
non-integer portid aborts the parse with a parse error (shown by the
counterexample). -/
theorem parse_nmap_notFound_open_filter (fs : List (String × NmapFile))
    (path : String) :
    (parse_nmap fs path = .error .notFound ↔ dlookup fs path = none) ∧
    (∀ recs, parse_nmap fs path = .ok recs →
      ∀ r ∈ recs, r.state = some "open") ∧
    (∀ entry : String,
      ((gnmapParts entry).length < 5 ∨
        pyToInt? ((gnmapParts entry).getD 0 "") = none) →
      parseGnmapEntry entry = none) ∧
    (∀ lines, parse_nmap [(path, .gnmapFile lines)] path =
      .ok (parseGnmap lines)) := by
  refine ⟨⟨?_, ?_⟩, ?_, ?_, ?_⟩
  · intro h
    rcases hd : dlookup fs path with _ | f
    · rfl
    · cases f with
      | xmlFile root =>
        simp only [parse_nmap, hd] at h
        rw [parseXml] at h
        cases hc : collectPorts (xmlPortElems root) with
        | error e =>
          rw [hc] at h
          have hne := collectPorts_not_notFound (xmlPortElems root)
          rw [hc] at hne
          exact absurd h hne
        | ok recs =>
          rw [hc] at h
          cases h
      | gnmapFile lines =>
        simp only [parse_nmap, hd] at h
        cases h
  · intro h
    rw [parse_nmap, h]
  · intro recs h r hr
    rcases hd : dlookup fs path with _ | f
    · simp [parse_nmap, hd] at h
    · cases f with
      | xmlFile root =>
        simp only [parse_nmap, hd] at h
        rw [parseXml] at h
        cases hc : collectPorts (xmlPortElems root) with
        | error e =>
          rw [hc] at h
          cases h
        | ok rs0 =>
          rw [hc] at h
          injection h with h
          rw [← h] at hr
          rcases List.mem_filter.mp hr with ⟨hmem, hst⟩
          exact eq_of_beq hst
      | gnmapFile lines =>
        simp only [parse_nmap, hd] at h
        injection h with h
        rw [← h] at hr
        rcases List.mem_flatMap.mp hr with ⟨line, hline, hr2⟩
        rcases List.mem_filterMap.mp hr2 with ⟨entry, hentry, he⟩
        exact parseGnmapEntry_state entry r he
  · intro entry hcond
    rw [parseGnmapEntry]
    rcases hcond with hlen | hint
    · by_cases h1 : (pyStrip entry == "") = true
      · rw [if_pos h1]
      · rw [if_neg h1, if_pos hlen]
    · by_cases h1 : (pyStrip entry == "") = true
      · rw [if_pos h1]
      · rw [if_neg h1]
        by_cases h2 : (gnmapParts entry).length < 5
        · rw [if_pos h2]
        · rw [if_neg h2, hint]
  · intro lines
    simp [parse_nmap, dlookup]
